import Mathlib

/-! # `network ls` and `plugin enable`

A shallow embedding of the two command handlers of the client,
`api/client/network/list.go` (`runList`) and `api/client/plugin/enable.go`
(`runEnable`), and the properties of their contract.

Both handlers are effectful: they call the remote daemon and write to the
output stream of the command line. A handler is embedded as a function from
its collaborators (the remote operations and the library routines it calls)
to an outcome record: the returned error, the remote requests issued, the
bytes that reached the output stream and, for `runList`, the text handed to
the tabwriter in front of that stream.
-/

/-- A Go `string`: a sequence of bytes. The order `<` of Go strings is the
lexicographic order of the bytes, which is the order of `List (Fin 256)`. -/
abbrev GoString := List (Fin 256)

/-- The bytes of a string literal of the source (Go source text is UTF-8). -/
def goStr (s : String) : GoString :=
  (s.data.flatMap String.utf8EncodeChar).map (fun b => Fin.ofNat b.toNat)

/-- A Go `error` value, identified with its message. -/
abbrev GoError := GoString

/-- The fields of `types.NetworkResource` read by `runList`. -/
structure NetworkResource where
  ID : GoString
  Name : GoString
  Driver : GoString
  Scope : GoString
deriving DecidableEq, Repr

/-! ## `sort.Interface` of `byNetworkName` (list.go, lines 18-22) -/

namespace byNetworkName

/-- `func (r byNetworkName) Len() int { return len(r) }` -/
def Len (r : List NetworkResource) : Nat := r.length

/-- `func (r byNetworkName) Swap(i, j int) { r[i], r[j] = r[j], r[i] }`.
Both right-hand sides are read before either element is assigned; an index
out of range is a run-time panic, `none` here. -/
def Swap (r : List NetworkResource) (i j : Nat) : Option (List NetworkResource) :=
  match r[i]?, r[j]? with
  | some ri, some rj => some ((r.set i rj).set j ri)
  | _, _ => none

/-- `func (r byNetworkName) Less(i, j int) bool { return r[i].Name < r[j].Name }`;
`none` for the panic on an index out of range. -/
def Less (r : List NetworkResource) (i j : Nat) : Option Bool :=
  match r[i]?, r[j]? with
  | some ri, some rj => some (decide (ri.Name < rj.Name))
  | _, _ => none

end byNetworkName

/-! ## The contract of `sort.Sort`

`sort.Sort` belongs to the Go standard library. It reads and rearranges the
data only through `Len`, `Less` and `Swap`, and its documentation promises a
sorted result and explicitly no stability ("The sort is not guaranteed to be
stable"). `runList` therefore takes the routine as a parameter, constrained by
that contract; the routine of the standard library itself is transcribed
further down, to run `runList` with it. -/

/-- The effect of a sequence of `Swap` calls, in order. -/
def applySwaps : List NetworkResource → List (Nat × Nat) → Option (List NetworkResource)
  | r, [] => some r
  | r, (i, j) :: rest => (byNetworkName.Swap r i j).bind (fun r' => applySwaps r' rest)

/-- What `sort.Sort(byNetworkName(r))` guarantees: the result is reached from `r`
by calls of `Swap` alone, and afterwards no element is `Less` than an earlier
one. -/
structure SortContract (sortSort : List NetworkResource → List NetworkResource) : Prop where
  bySwaps : ∀ r, ∃ swaps, applySwaps r swaps = some (sortSort r)
  sorted : ∀ r i j, i < j → j < byNetworkName.Len (sortSort r) →
    byNetworkName.Less (sortSort r) j i = some false

/-- Stability of a reordering: for every name, the records carrying it occur in
the output in the order in which they occur in the input. -/
def StableOrder (input output : List NetworkResource) : Prop :=
  ∀ n : GoString, output.filter (fun r => r.Name = n) = input.filter (fun r => r.Name = n)

/-- A stable sort by `Name`: insertion sort, which never moves a record past
one of the same name. -/
def stableSort (r : List NetworkResource) : List NetworkResource :=
  r.insertionSort (fun a b => a.Name ≤ b.Name)

/-! ## `sort.Sort` of the Go standard library

Line 79 of list.go calls `sort.Sort`, which is not part of the repository. The
definitions below transcribe the routine of the standard library (the
pattern-defeating quicksort of Go 1.19 and later, `sort/zsortinterface.go`)
over a `sort.Interface`. Indices are natural numbers: in the routine they never
fall below the lower bound `a` of the slice being sorted. A loop takes a bound
on its number of iterations and yields `none` if the bound is reached, as it
does when `Less` or `Swap` panics. The pseudo-random generator that
`breakPatterns` draws from is a parameter, `next`. -/

namespace sort

/-- `type Interface interface { Len() int; Less(i, j int) bool; Swap(i, j int) }`,
for data of type `α`; `none` is a panic. -/
structure Interface (α : Type) where
  Len : α → Nat
  Less : α → Nat → Nat → Option Bool
  Swap : α → Nat → Nat → Option α

/-- The number of binary digits of `x`, by halving at most `steps` times. -/
def bitsLenFrom : Nat → Nat → Nat
  | 0, _ => 0
  | steps + 1, x => if x = 0 then 0 else bitsLenFrom steps (x / 2) + 1

/-- `bits.Len(x)`: the number of bits needed to represent `x`, 0 for 0. -/
def bitsLen (x : Nat) : Nat := bitsLenFrom x x

/-- `for cond(i) { i++ }`: the value of `i` after the loop. -/
def countUp (cond : Nat → Option Bool) : Nat → Nat → Option Nat
  | 0, _ => none
  | steps + 1, i =>
    match cond i with
    | none => none
    | some true => countUp cond steps (i + 1)
    | some false => some i

/-- `for cond(j) { j-- }`: the value of `j` after the loop. -/
def countDown (cond : Nat → Option Bool) : Nat → Nat → Option Nat
  | 0, _ => none
  | steps + 1, j =>
    match cond j with
    | none => none
    | some true => countDown cond steps (j - 1)
    | some false => some j

/-- The inner loop of `insertionSort`:
`for j := i; j > a && data.Less(j, j-1); j-- { data.Swap(j, j-1) }`. -/
def insertionSortShift {α : Type} (I : Interface α) (a : Nat) : Nat → α → Option α
  | 0, data => some data
  | j + 1, data =>
    if a < j + 1 then
      match I.Less data (j + 1) j with
      | none => none
      | some true =>
        match I.Swap data (j + 1) j with
        | none => none
        | some data => insertionSortShift I a j data
      | some false => some data
    else some data

/-- The outer loop of `insertionSort`: `for i := a + 1; i < b; i++ { ... }`. -/
def insertionSortFrom {α : Type} (I : Interface α) (a b : Nat) : Nat → Nat → α → Option α
  | 0, i, data => if i < b then none else some data
  | steps + 1, i, data =>
    if i < b then
      match insertionSortShift I a i data with
      | none => none
      | some data => insertionSortFrom I a b steps (i + 1) data
    else some data

/-- `func insertionSort(data Interface, a, b int)`: sorts `data[a:b]`. -/
def insertionSort {α : Type} (I : Interface α) (data : α) (a b : Nat) : Option α :=
  insertionSortFrom I a b (b - a) (a + 1) data

/-- The loop of `siftDown`, from `root`. -/
def siftDownFrom {α : Type} (I : Interface α) (hi first : Nat) : Nat → Nat → α → Option α
  | 0, _, _ => none
  | steps + 1, root, data =>
    let child := 2 * root + 1
    if child ≥ hi then some data
    else
      match (if child + 1 < hi then I.Less data (first + child) (first + child + 1)
             else some false) with
      | none => none
      | some greater =>
        let child := if greater then child + 1 else child
        match I.Less data (first + root) (first + child) with
        | none => none
        | some false => some data
        | some true =>
          match I.Swap data (first + root) (first + child) with
          | none => none
          | some data => siftDownFrom I hi first steps child data

/-- `func siftDown(data Interface, lo, hi, first int)`. -/
def siftDown {α : Type} (I : Interface α) (data : α) (lo hi first : Nat) : Option α :=
  siftDownFrom I hi first (hi + 1) lo data

/-- The first loop of `heapSort`:
`for i := (hi - 1) / 2; i >= 0; i-- { siftDown(data, i, hi, first) }`. -/
def heapSortBuild {α : Type} (I : Interface α) (hi first : Nat) : Nat → α → Option α
  | 0, data => siftDown I data 0 hi first
  | i + 1, data =>
    match siftDown I data (i + 1) hi first with
    | none => none
    | some data => heapSortBuild I hi first i data

/-- The second loop of `heapSort`:
`for i := hi - 1; i >= 0; i-- { data.Swap(first, first+i); siftDown(data, lo, i, first) }`. -/
def heapSortPop {α : Type} (I : Interface α) (first : Nat) : Nat → α → Option α
  | 0, data =>
    match I.Swap data first first with
    | none => none
    | some data => siftDown I data 0 0 first
  | i + 1, data =>
    match I.Swap data first (first + (i + 1)) with
    | none => none
    | some data =>
      match siftDown I data 0 (i + 1) first with
      | none => none
      | some data => heapSortPop I first i data

/-- `func heapSort(data Interface, a, b int)`. -/
def heapSort {α : Type} (I : Interface α) (data : α) (a b : Nat) : Option α :=
  let first := a
  let hi := b - a
  match heapSortBuild I hi first ((hi - 1) / 2) data with
  | none => none
  | some data => if hi = 0 then some data else heapSortPop I first (hi - 1) data

/-- `type sortedHint int`. -/
inductive sortedHint where
  | unknownHint
  | increasingHint
  | decreasingHint
deriving DecidableEq, Repr

/-- `func order2(data Interface, a, b int, swaps *int) (int, int)`; the third
component is the new value of `*swaps`. -/
def order2 {α : Type} (I : Interface α) (data : α) (a b swaps : Nat) :
    Option (Nat × Nat × Nat) :=
  match I.Less data b a with
  | none => none
  | some true => some (b, a, swaps + 1)
  | some false => some (a, b, swaps)

/-- `func median(data Interface, a, b, c int, swaps *int) int`; the second
component is the new value of `*swaps`. -/
def median {α : Type} (I : Interface α) (data : α) (a b c swaps : Nat) : Option (Nat × Nat) :=
  match order2 I data a b swaps with
  | none => none
  | some (a, b, swaps) =>
    match order2 I data b c swaps with
    | none => none
    | some (b, _, swaps) =>
      match order2 I data a b swaps with
      | none => none
      | some (_, b, swaps) => some (b, swaps)

/-- `func medianAdjacent(data Interface, a int, swaps *int) int`. -/
def medianAdjacent {α : Type} (I : Interface α) (data : α) (a swaps : Nat) : Option (Nat × Nat) :=
  median I data (a - 1) a (a + 1) swaps

/-- `func choosePivot(data Interface, a, b int) (pivot int, hint sortedHint)`,
with `shortestNinther = 50` and `maxSwaps = 4 * 3`. -/
def choosePivot {α : Type} (I : Interface α) (data : α) (a b : Nat) : Option (Nat × sortedHint) :=
  let l := b - a
  let i := a + l / 4 * 1
  let j := a + l / 4 * 2
  let k := a + l / 4 * 3
  let chosen : Option (Nat × Nat) :=
    if l ≥ 8 then
      if l ≥ 50 then
        match medianAdjacent I data i 0 with
        | none => none
        | some (i, swaps) =>
          match medianAdjacent I data j swaps with
          | none => none
          | some (j, swaps) =>
            match medianAdjacent I data k swaps with
            | none => none
            | some (k, swaps) => median I data i j k swaps
      else median I data i j k 0
    else some (j, 0)
  match chosen with
  | none => none
  | some (j, swaps) =>
    if swaps = 0 then some (j, .increasingHint)
    else if swaps = 4 * 3 then some (j, .decreasingHint)
    else some (j, .unknownHint)

/-- The loop of `reverseRange`: `for i < j { data.Swap(i, j); i++; j-- }`. -/
def reverseRangeFrom {α : Type} (I : Interface α) : Nat → Nat → Nat → α → Option α
  | 0, i, j, data => if i < j then none else some data
  | steps + 1, i, j, data =>
    if i < j then
      match I.Swap data i j with
      | none => none
      | some data => reverseRangeFrom I steps (i + 1) (j - 1) data
    else some data

/-- `func reverseRange(data Interface, a, b int)`. -/
def reverseRange {α : Type} (I : Interface α) (data : α) (a b : Nat) : Option α :=
  reverseRangeFrom I (b - a) a (b - 1) data

/-- In `partialInsertionSort`, "shift the smaller one to the left":
`for j := i - 1; j >= 1; j-- { if !data.Less(j, j-1) { break }; data.Swap(j, j-1) }`. -/
def shiftLeft {α : Type} (I : Interface α) : Nat → α → Option α
  | 0, data => some data
  | j + 1, data =>
    match I.Less data (j + 1) j with
    | none => none
    | some false => some data
    | some true =>
      match I.Swap data (j + 1) j with
      | none => none
      | some data => shiftLeft I j data

/-- In `partialInsertionSort`, "shift the greater one to the right":
`for j := i + 1; j < b; j++ { if !data.Less(j, j-1) { break }; data.Swap(j, j-1) }`. -/
def shiftRight {α : Type} (I : Interface α) (b : Nat) : Nat → Nat → α → Option α
  | 0, j, data => if j < b then none else some data
  | steps + 1, j, data =>
    if j < b then
      match I.Less data j (j - 1) with
      | none => none
      | some false => some data
      | some true =>
        match I.Swap data j (j - 1) with
        | none => none
        | some data => shiftRight I b steps (j + 1) data
    else some data

/-- The loop `for j := 0; j < maxSteps; j++` of `partialInsertionSort`, with
`left` iterations to go; `shortestShifting = 50`. -/
def partialInsertionSortFrom {α : Type} (I : Interface α) (a b : Nat) :
    Nat → Nat → α → Option (Bool × α)
  | 0, _, data => some (false, data)
  | left + 1, i, data =>
    match countUp (fun i => if i < b then (I.Less data i (i - 1)).map (fun c => !c)
                            else some false) (b - a + 1) i with
    | none => none
    | some i =>
      if i = b then some (true, data)
      else if b - a < 50 then some (false, data)
      else
        match I.Swap data i (i - 1) with
        | none => none
        | some data =>
          match (if i - a ≥ 2 then shiftLeft I (i - 1) data else some data) with
          | none => none
          | some data =>
            match (if b - i ≥ 2 then shiftRight I b (b - i) (i + 1) data else some data) with
            | none => none
            | some data => partialInsertionSortFrom I a b left i data

/-- `func partialInsertionSort(data Interface, a, b int) bool`, with
`maxSteps = 5`. -/
def partialInsertionSort {α : Type} (I : Interface α) (data : α) (a b : Nat) :
    Option (Bool × α) :=
  partialInsertionSortFrom I a b 5 (a + 1) data

/-- `func nextPowerOfTwo(length int) uint`: `1 << bits.Len(uint(length))`. -/
def nextPowerOfTwo (length : Nat) : Nat := 2 ^ bitsLen length

/-- The loop `for i := 0; i < 3; i++` of `breakPatterns`, with `left` iterations
to go; `random` is the state of the generator, and `modulus` being a power of
two, `random.Next() & (modulus - 1)` is a remainder. -/
def breakPatternsFrom {α : Type} (next : Nat → Nat) (I : Interface α)
    (a length modulus idx : Nat) : Nat → Nat → Nat → α → Option α
  | 0, _, _, data => some data
  | left + 1, i, random, data =>
    let random := next random
    let other := random % modulus
    let other := if other ≥ length then other - length else other
    match I.Swap data (idx - 1 + i) (a + other) with
    | none => none
    | some data => breakPatternsFrom next I a length modulus idx left (i + 1) random data

/-- `func breakPatterns(data Interface, a, b int)`; `next` is the method `Next`
of the generator, which `breakPatterns` seeds with the length. -/
def breakPatterns {α : Type} (next : Nat → Nat) (I : Interface α) (data : α) (a b : Nat) :
    Option α :=
  let length := b - a
  if length ≥ 8 then
    breakPatternsFrom next I a length (nextPowerOfTwo length) (a + length / 4 * 2 - 1) 3 0
      length data
  else some data

/-- The two scans that `partition` repeats:
`for i <= j && data.Less(i, a) { i++ }` and `for i <= j && !data.Less(j, a) { j-- }`. -/
def partitionScan {α : Type} (I : Interface α) (data : α) (a b i j : Nat) : Option (Nat × Nat) :=
  match countUp (fun i => if i ≤ j then I.Less data i a else some false) (b - a + 1) i with
  | none => none
  | some i =>
    match countDown (fun j => if i ≤ j then (I.Less data j a).map (fun c => !c)
                              else some false) (b - a + 1) j with
    | none => none
    | some j => some (i, j)

/-- The loop `for { ... }` of `partition`; yields `j` and the data. -/
def partitionFrom {α : Type} (I : Interface α) (a b : Nat) : Nat → Nat → Nat → α → Option (Nat × α)
  | 0, _, _, _ => none
  | steps + 1, i, j, data =>
    match partitionScan I data a b i j with
    | none => none
    | some (i, j) =>
      if i > j then some (j, data)
      else
        match I.Swap data i j with
        | none => none
        | some data => partitionFrom I a b steps (i + 1) (j - 1) data

/-- `func partition(data Interface, a, b, pivot int) (newpivot int, alreadyPartitioned bool)`. -/
def partition {α : Type} (I : Interface α) (data : α) (a b pivot : Nat) :
    Option (Nat × Bool × α) :=
  match I.Swap data a pivot with
  | none => none
  | some data =>
    match partitionScan I data a b (a + 1) (b - 1) with
    | none => none
    | some (i, j) =>
      if i > j then
        match I.Swap data j a with
        | none => none
        | some data => some (j, true, data)
      else
        match I.Swap data i j with
        | none => none
        | some data =>
          match partitionFrom I a b (b - a) (i + 1) (j - 1) data with
          | none => none
          | some (j, data) =>
            match I.Swap data j a with
            | none => none
            | some data => some (j, false, data)

/-- The loop `for { ... }` of `partitionEqual`; yields `i` and the data. -/
def partitionEqualFrom {α : Type} (I : Interface α) (a b : Nat) :
    Nat → Nat → Nat → α → Option (Nat × α)
  | 0, _, _, _ => none
  | steps + 1, i, j, data =>
    match countUp (fun i => if i ≤ j then (I.Less data a i).map (fun c => !c)
                            else some false) (b - a + 1) i with
    | none => none
    | some i =>
      match countDown (fun j => if i ≤ j then I.Less data a j else some false) (b - a + 1) j with
      | none => none
      | some j =>
        if i > j then some (i, data)
        else
          match I.Swap data i j with
          | none => none
          | some data => partitionEqualFrom I a b steps (i + 1) (j - 1) data

/-- `func partitionEqual(data Interface, a, b, pivot int) (newpivot int)`. -/
def partitionEqual {α : Type} (I : Interface α) (data : α) (a b pivot : Nat) : Option (Nat × α) :=
  match I.Swap data a pivot with
  | none => none
  | some data => partitionEqualFrom I a b (b - a + 1) (a + 1) (b - 1) data

/-- `func pdqsort(data Interface, a, b, limit int)`, with `maxInsertion = 12`:
one iteration of its loop `for { ... }` per step, `wasBalanced` and
`wasPartitioned` being the two variables of the loop. -/
def pdqsort {α : Type} (next : Nat → Nat) (I : Interface α) :
    Nat → α → Nat → Nat → Nat → Bool → Bool → Option α
  | 0, _, _, _, _, _, _ => none
  | steps + 1, data, a, b, limit, wasBalanced, wasPartitioned =>
    let length := b - a
    if length ≤ 12 then insertionSort I data a b
    else if limit = 0 then heapSort I data a b
    else
      match (if !wasBalanced then (breakPatterns next I data a b).map (fun data => (data, limit - 1))
             else some (data, limit)) with
      | none => none
      | some (data, limit) =>
        match choosePivot I data a b with
        | none => none
        | some (pivot, hint) =>
          match (if hint = .decreasingHint then
                   (reverseRange I data a b).map
                     (fun data => (data, (b - 1) - (pivot - a), sortedHint.increasingHint))
                 else some (data, pivot, hint)) with
          | none => none
          | some (data, pivot, hint) =>
            match (if wasBalanced && wasPartitioned && hint = .increasingHint then
                     partialInsertionSort I data a b
                   else some (false, data)) with
            | none => none
            | some (true, data) => some data
            | some (false, data) =>
              match (if a > 0 then (I.Less data (a - 1) pivot).map (fun c => !c)
                     else some false) with
              | none => none
              | some true =>
                match partitionEqual I data a b pivot with
                | none => none
                | some (mid, data) =>
                  pdqsort next I steps data mid b limit wasBalanced wasPartitioned
              | some false =>
                match partition I data a b pivot with
                | none => none
                | some (mid, alreadyPartitioned, data) =>
                  let leftLen := mid - a
                  let rightLen := b - mid
                  let balanceThreshold := length / 8
                  if leftLen < rightLen then
                    match pdqsort next I steps data a mid limit true true with
                    | none => none
                    | some data =>
                      pdqsort next I steps data (mid + 1) b limit
                        (leftLen ≥ balanceThreshold) alreadyPartitioned
                  else
                    match pdqsort next I steps data (mid + 1) b limit true true with
                    | none => none
                    | some data =>
                      pdqsort next I steps data a mid limit
                        (rightLen ≥ balanceThreshold) alreadyPartitioned

end sort

/-- `func Sort(data Interface)`: `limit := bits.Len(uint(n))`. -/
def sort.Sort {α : Type} (next : Nat → Nat) (I : sort.Interface α) (data : α) : Option α :=
  let n := I.Len data
  if n ≤ 1 then some data
  else sort.pdqsort next I (n + 1) data 0 n (sort.bitsLen n) true true

/-- The methods of `byNetworkName` as a `sort.Interface`. -/
def byNetworkName.asInterface : sort.Interface (List NetworkResource) :=
  { Len := byNetworkName.Len, Less := byNetworkName.Less, Swap := byNetworkName.Swap }

/-! ## `pkg/stringid` -/

namespace stringid

/-- Modelled from the spec: `pkg/stringid` is not among the sources; the length
of a truncated ID, "a short fixed-length prefix", 12 bytes. -/
def shortLen : Nat := 12

/-- Modelled from the spec: `stringid.TruncateID` is not among the sources; a
truncated ID is "a fixed-length prefix of a full identifier". -/
def TruncateID (id : GoString) : GoString := id.take shortLen

end stringid

/-! ## `filters` -/

namespace filters

/-- Modelled from the spec: the type `filters.Args` is not among the sources; a
FilterSet is built "from repeated `key=value` flag occurrences". -/
abbrev Args := List (GoString × GoString)

/-- Modelled from the spec: `filters.NewArgs` is not among the sources; the
empty FilterSet. -/
def NewArgs : Args := []

/-- Modelled from the spec: `filters.ParseFlag` is not among the sources; "each
filter string is parsed into (key, value)", a string with no `=` is malformed. -/
def ParseFlag (f : GoString) (prev : Args) : Except GoError Args :=
  if (61 : Fin 256) ∈ f then
    .ok (prev ++ [(f.takeWhile (fun b => b ≠ 61), (f.dropWhile (fun b => b ≠ 61)).drop 1)])
  else
    .error (goStr "bad format of filter (expected name=value)")

end filters

/-! ## `runList` (list.go, lines 24-28 and 52-101) -/

namespace network

/-- `type listOptions struct { quiet bool; noTrunc bool; filter []string }` -/
structure listOptions where
  quiet : Bool
  noTrunc : Bool
  filter : List GoString
deriving DecidableEq, Repr

/-- What `runList` calls outside of its own file: the package `filters`, the
remote operation `NetworkList` of the client, `stringid.TruncateID`,
`sort.Sort` on `byNetworkName`, and the formatting that the `tabwriter`
(created with `NewWriter(out, 20, 1, 3, ' ', 0)`) applies to the text written
to it before the text reaches `dockerCli.Out()`. -/
structure ListDeps (Args : Type) where
  NewArgs : Args
  ParseFlag : GoString → Args → Except GoError Args
  NetworkList : Args → Except GoError (List NetworkResource)
  TruncateID : GoString → GoString
  sortSort : List NetworkResource → List NetworkResource
  tabwriterFlush : GoString → GoString

/-- What is observable of one run of `runList`. -/
structure ListOutcome (Args : Type) where
  /-- the returned error, `none` for `nil` -/
  err : Option GoError
  /-- the filter arguments of the `NetworkList` requests issued, in order -/
  requests : List Args
  /-- the text written to the tabwriter `w` -/
  written : GoString
  /-- the bytes that reached `dockerCli.Out()` -/
  out : GoString

/-- Lines 55-62: the loop over `opts.filter`, which stops at the first error. -/
def parseFilters {Args : Type} (ParseFlag : GoString → Args → Except GoError Args) :
    List GoString → Args → Except GoError Args
  | [], netFilterArgs => .ok netFilterArgs
  | f :: rest, netFilterArgs =>
    match ParseFlag f netFilterArgs with
    | .error err => .error err
    | .ok netFilterArgs => parseFilters ParseFlag rest netFilterArgs

/-- Lines 81 and 85-87: the ID printed for a record, truncated unless
`--no-trunc` is given. -/
def printedID (TruncateID : GoString → GoString) (opts : listOptions)
    (networkResource : NetworkResource) : GoString :=
  let ID := networkResource.ID
  if !opts.noTrunc then TruncateID ID else ID

/-- Lines 81-97: the body of the loop over the sorted records; `w` is the text
written so far. `Fprintln` writes its operand and a newline, `%s` writes a
string as it is. -/
def writeRow (TruncateID : GoString → GoString) (opts : listOptions) (w : GoString)
    (networkResource : NetworkResource) : GoString :=
  let ID := printedID TruncateID opts networkResource
  let netName := networkResource.Name
  let driver := networkResource.Driver
  let scope := networkResource.Scope
  if opts.quiet then
    w ++ (ID ++ goStr "\n")
  else
    let w := w ++ (ID ++ goStr "\t" ++ netName ++ goStr "\t" ++ driver ++ goStr "\t"
      ++ scope ++ goStr "\t")
    w ++ goStr "\n"

/-- `func runList(dockerCli *client.DockerCli, opts listOptions) error` -/
def runList {Args : Type} (d : ListDeps Args) (opts : listOptions) : ListOutcome Args :=
  match parseFilters d.ParseFlag opts.filter d.NewArgs with
  | .error err => { err := some err, requests := [], written := [], out := [] }
  | .ok netFilterArgs =>
    match d.NetworkList netFilterArgs with
    | .error err => { err := some err, requests := [netFilterArgs], written := [], out := [] }
    | .ok networkResources =>
      let w : GoString := []
      let w :=
        if !opts.quiet then (w ++ goStr "网络ID\t名称\t驱动\t范围") ++ goStr "\n" else w
      let networkResources := d.sortSort networkResources
      let w := networkResources.foldl (writeRow d.TruncateID opts) w
      { err := none, requests := [netFilterArgs], written := w, out := d.tabwriterFlush w }

/-- The text that the loop body writes for one record. -/
def rowText (TruncateID : GoString → GoString) (opts : listOptions)
    (networkResource : NetworkResource) : GoString :=
  writeRow TruncateID opts [] networkResource

/-- The pieces of a text between the occurrences of a separator byte. -/
def splitBytes (sep : Fin 256) : GoString → List GoString
  | [] => [[]]
  | b :: rest =>
    if b = sep then [] :: splitBytes sep rest
    else
      match splitBytes sep rest with
      | [] => [[b]]
      | piece :: pieces => (b :: piece) :: pieces

/-- The first line of a text: what precedes its first newline. -/
def firstLine (text : GoString) : GoString :=
  text.takeWhile (fun b => b ≠ 10)

/-- The collaborators of `runList` for a daemon that answers every request with
`answer`: the packages `filters` and `stringid` as modelled above, a given
sorting routine, and a tabwriter that leaves the text as it is. -/
def specDeps (answer : Except GoError (List NetworkResource))
    (sortSort : List NetworkResource → List NetworkResource) : ListDeps filters.Args :=
  { NewArgs := filters.NewArgs
    ParseFlag := filters.ParseFlag
    NetworkList := fun _ => answer
    TruncateID := stringid.TruncateID
    sortSort := sortSort
    tabwriterFlush := fun text => text }

/-- Three networks as a daemon may list them: two share the name `bridge`. -/
def sampleNetworks : List NetworkResource :=
  [ { ID := goStr "7fca4eb8c647aa11", Name := goStr "host", Driver := goStr "host",
      Scope := goStr "local" },
    { ID := goStr "9f904ee27bf5", Name := goStr "bridge", Driver := goStr "bridge",
      Scope := goStr "local" },
    { ID := goStr "cf03ee007fb4", Name := goStr "bridge", Driver := goStr "overlay",
      Scope := goStr "swarm" } ]

/-- Line 79, `sort.Sort(byNetworkName(networkResources))`, with the routine of
the standard library; a run that panics leaves the slice as it is. -/
def sortNetworks (next : Nat → Nat) (networkResources : List NetworkResource) :
    List NetworkResource :=
  (sort.Sort next byNetworkName.asInterface networkResources).getD networkResources

/-- Thirteen networks as a daemon may list them: the first two share the name
`app`. -/
def thirteenNetworks : List NetworkResource :=
  [ ⟨goStr "a7c4e1000001", goStr "app", goStr "bridge", goStr "local"⟩,
    ⟨goStr "a7c4e1000002", goStr "app", goStr "overlay", goStr "swarm"⟩,
    ⟨goStr "a7c4e1000003", goStr "backend", goStr "bridge", goStr "local"⟩,
    ⟨goStr "a7c4e1000004", goStr "bridge", goStr "bridge", goStr "local"⟩,
    ⟨goStr "a7c4e1000005", goStr "cache", goStr "bridge", goStr "local"⟩,
    ⟨goStr "a7c4e1000006", goStr "db", goStr "bridge", goStr "local"⟩,
    ⟨goStr "a7c4e1000007", goStr "frontend", goStr "bridge", goStr "local"⟩,
    ⟨goStr "a7c4e1000008", goStr "host", goStr "host", goStr "local"⟩,
    ⟨goStr "a7c4e1000009", goStr "ingress", goStr "overlay", goStr "swarm"⟩,
    ⟨goStr "a7c4e1000010", goStr "logs", goStr "bridge", goStr "local"⟩,
    ⟨goStr "a7c4e1000011", goStr "metrics", goStr "bridge", goStr "local"⟩,
    ⟨goStr "a7c4e1000012", goStr "none", goStr "null", goStr "local"⟩,
    ⟨goStr "a7c4e1000013", goStr "admin", goStr "bridge", goStr "local"⟩ ]

end network

/-! ## Package `reference` -/

namespace reference

/-- Modelled from the spec: the package `reference` is not among the sources. A
reference is "a name optionally qualified with a tag" (`Reference = Name |
NamedTagged`); the failing branch of the type assertion in `runEnable` (lines
36-39) shows a third kind, a name qualified by something that is not a tag. -/
inductive Named where
  | nameOnly (name : GoString)
  | tagged (name tag : GoString)
  | canonical (name digest : GoString)
deriving DecidableEq, Repr

/-- Modelled from the spec: the interface `reference.NamedTagged` is not among
the sources; "the tagged-name kind", a name with an explicit tag. -/
structure NamedTagged where
  name : GoString
  tag : GoString
deriving DecidableEq, Repr

/-- Modelled from the spec: the method `String` of a tagged reference is not
among the sources; "the normalized reference string (`name:tag`)". -/
def NamedTagged.String (ref : NamedTagged) : GoString :=
  ref.name ++ goStr ":" ++ ref.tag

/-- Modelled from the spec: the method `String` of a reference is not among the
sources; the name, followed by its qualifier when it has one. -/
def Named.String : Named → GoString
  | .nameOnly name => name
  | .tagged name tag => NamedTagged.String ⟨name, tag⟩
  | .canonical name digest => name ++ goStr "@" ++ digest

/-- The type assertion `named.(reference.NamedTagged)` of line 36: the value
itself when it is of the tagged kind. -/
def Named.asNamedTagged : Named → Option NamedTagged
  | .tagged name tag => some ⟨name, tag⟩
  | _ => none

/-- Modelled from the spec: `reference.DefaultTag` is not among the sources;
the "default tag (policy value, e.g. `latest`)". -/
def DefaultTag : GoString := goStr "latest"

/-- Modelled from the spec: `reference.IsNameOnly` is not among the sources;
true when "no tag was supplied" and no other qualifier either. -/
def IsNameOnly : Named → Bool
  | .nameOnly _ => true
  | _ => false

/-- Modelled from the spec: `reference.WithDefaultTag` is not among the
sources; "if no tag was supplied, apply a default tag". -/
def WithDefaultTag : Named → Named
  | .nameOnly name => .tagged name DefaultTag
  | named => named

/-- Modelled from the spec: the grammar of `reference.ParseNamed` is not among
the sources; the bytes taken as allowed in a name ("disallowed characters" make
the syntax invalid): `a`-`z`, `0`-`9`, and the separators `.`, `_`, `-`, `/`. -/
def isNameByte (b : Fin 256) : Bool :=
  (97 ≤ b.val && b.val ≤ 122) || (48 ≤ b.val && b.val ≤ 57) ||
    b.val == 46 || b.val == 95 || b.val == 45 || b.val == 47

/-- Modelled from the spec: the grammar of `reference.ParseNamed` is not among
the sources; the bytes taken as allowed in a tag: letters, digits, `_`, `.`
and `-`. -/
def isTagByte (b : Fin 256) : Bool :=
  (97 ≤ b.val && b.val ≤ 122) || (65 ≤ b.val && b.val ≤ 90) || (48 ≤ b.val && b.val ≤ 57) ||
    b.val == 95 || b.val == 46 || b.val == 45

/-- Modelled from the spec: `reference.ParseNamed` is not among the sources;
"parse the argument into a structured reference (name + optional tag)", where
"invalid syntax (e.g., disallowed characters) fails immediately with an error
identifying the bad input". The tag is what follows the first `:`. -/
def ParseNamed (s : GoString) : Except GoError Named :=
  let name := s.takeWhile (fun b => b ≠ 58)
  let rest := s.dropWhile (fun b => b ≠ 58)
  if name = [] ∨ name.all isNameByte = false then
    .error (goStr "Error parsing reference: " ++ s ++ goStr " is not a valid repository/tag")
  else
    match rest with
    | [] => .ok (.nameOnly name)
    | _ :: tag =>
      if tag = [] ∨ tag.all isTagByte = false then
        .error (goStr "Error parsing reference: " ++ s ++ goStr " is not a valid repository/tag")
      else
        .ok (.tagged name tag)

end reference

/-! ## `runEnable` (enable.go, lines 28-45) -/

namespace plugin

/-- What `runEnable` calls outside of its own file: three functions of the
package `reference`, and the remote operation `PluginEnable` of the client
(`none` for a `nil` error). -/
structure EnableDeps where
  ParseNamed : GoString → Except GoError reference.Named
  IsNameOnly : reference.Named → Bool
  WithDefaultTag : reference.Named → reference.Named
  PluginEnable : GoString → Option GoError

/-- What is observable of one run of `runEnable`. -/
structure EnableOutcome where
  /-- the returned error, `none` for `nil` -/
  err : Option GoError
  /-- the reference strings of the `PluginEnable` requests issued, in order -/
  requests : List GoString
  /-- the bytes written to `dockerCli.Out()` -/
  out : GoString
deriving DecidableEq, Repr

/-- Lines 33-35: a reference that is a name only gets the default tag. -/
def normalize (d : EnableDeps) (named : reference.Named) : reference.Named :=
  if d.IsNameOnly named then d.WithDefaultTag named else named

/-- `func runEnable(dockerCli *client.DockerCli, name string) error` -/
def runEnable (d : EnableDeps) (name : GoString) : EnableOutcome :=
  match d.ParseNamed name with
  | .error err => { err := some err, requests := [], out := [] }
  | .ok named =>
    let named := normalize d named
    match named.asNamedTagged with
    | none => { err := some (goStr "无效名称: " ++ named.String), requests := [], out := [] }
    | some ref =>
      match d.PluginEnable ref.String with
      | some err => { err := some err, requests := [ref.String], out := [] }
      | none => { err := none, requests := [ref.String], out := name ++ goStr "\n" }

/-- The collaborators of `runEnable` for a given parser and a given remote
operation, with `IsNameOnly` and `WithDefaultTag` as modelled above. -/
def specDeps (ParseNamed : GoString → Except GoError reference.Named)
    (PluginEnable : GoString → Option GoError) : EnableDeps :=
  { ParseNamed := ParseNamed
    IsNameOnly := reference.IsNameOnly
    WithDefaultTag := reference.WithDefaultTag
    PluginEnable := PluginEnable }

end plugin

/-! ## Lemmas on `Swap` and the contract of `sort.Sort` -/

theorem cons_set_perm {α : Type} : ∀ (l : List α) (j : Nat) (a b : α),
    l[j]? = some b → (b :: l.set j a).Perm (a :: l)
  | [], j, a, b, h => by simp at h
  | c :: l, 0, a, b, h => by
    simp at h
    subst h
    simpa using List.Perm.swap a c l
  | c :: l, j + 1, a, b, h => by
    simp at h
    have ih := cons_set_perm l j a b h
    simp only [List.set_cons_succ]
    exact (List.Perm.swap c b _).trans (((ih.cons c)).trans (List.Perm.swap a c l))

theorem set_set_perm_of_getElem? {α : Type} : ∀ (l : List α) (i j : Nat) (a b : α),
    l[i]? = some a → l[j]? = some b → ((l.set i b).set j a).Perm l
  | [], i, j, a, b, hi, _ => by simp at hi
  | c :: l, 0, 0, a, b, hi, hj => by
    simp at hi hj
    subst hi
    simp
  | c :: l, 0, j + 1, a, b, hi, hj => by
    simp at hi hj
    subst hi
    simpa using cons_set_perm l j c b hj
  | c :: l, i + 1, 0, a, b, hi, hj => by
    simp at hi hj
    subst hj
    simpa using cons_set_perm l i c a hi
  | c :: l, i + 1, j + 1, a, b, hi, hj => by
    simp at hi hj
    simpa using set_set_perm_of_getElem? l i j a b hi hj

theorem byNetworkName.Swap_perm {r r' : List NetworkResource} {i j : Nat}
    (h : byNetworkName.Swap r i j = some r') : r'.Perm r := by
  unfold byNetworkName.Swap at h
  split at h
  · next ri rj hi hj =>
    cases h
    exact set_set_perm_of_getElem? r i j ri rj hi hj
  · cases h

theorem applySwaps_perm : ∀ (swaps : List (Nat × Nat)) (r r' : List NetworkResource),
    applySwaps r swaps = some r' → r'.Perm r
  | [], r, r', h => by
    simp [applySwaps] at h
    subst h
    exact List.Perm.refl _
  | (i, j) :: rest, r, r', h => by
    simp only [applySwaps, Option.bind_eq_some] at h
    obtain ⟨r₁, h₁, h₂⟩ := h
    exact (applySwaps_perm rest r₁ r' h₂).trans (byNetworkName.Swap_perm h₁)

theorem applySwaps_append : ∀ (s₁ s₂ : List (Nat × Nat)) (r r₁ r₂ : List NetworkResource),
    applySwaps r s₁ = some r₁ → applySwaps r₁ s₂ = some r₂ →
    applySwaps r (s₁ ++ s₂) = some r₂
  | [], s₂, r, r₁, r₂, h₁, h₂ => by
    simp [applySwaps] at h₁
    subst h₁
    simpa using h₂
  | (i, j) :: rest, s₂, r, r₁, r₂, h₁, h₂ => by
    simp only [applySwaps, Option.bind_eq_some] at h₁
    obtain ⟨r', hr', h₁⟩ := h₁
    simp only [List.cons_append, applySwaps, Option.bind_eq_some]
    exact ⟨r', hr', applySwaps_append rest s₂ r' r₁ r₂ h₁ h₂⟩

theorem applySwaps_cons (a : NetworkResource) : ∀ (swaps : List (Nat × Nat))
    (r r' : List NetworkResource), applySwaps r swaps = some r' →
    applySwaps (a :: r) (swaps.map (fun p => (p.1 + 1, p.2 + 1))) = some (a :: r')
  | [], r, r', h => by
    simp [applySwaps] at h
    subst h
    simp [applySwaps]
  | (i, j) :: rest, r, r', h => by
    simp only [applySwaps, Option.bind_eq_some] at h
    obtain ⟨r₁, h₁, h₂⟩ := h
    simp only [List.map_cons, applySwaps, Option.bind_eq_some]
    refine ⟨a :: r₁, ?_, applySwaps_cons a rest r₁ r' h₂⟩
    unfold byNetworkName.Swap at h₁ ⊢
    simp only [List.getElem?_cons_succ]
    split at h₁
    · next ri rj hi hj =>
      cases h₁
      simp [hi, hj]
    · cases h₁

theorem exists_swaps_of_perm {r r' : List NetworkResource} (h : r.Perm r') :
    ∃ swaps, applySwaps r swaps = some r' := by
  induction h with
  | nil => exact ⟨[], rfl⟩
  | cons a _ ih =>
    obtain ⟨swaps, hs⟩ := ih
    exact ⟨_, applySwaps_cons a swaps _ _ hs⟩
  | swap a b l =>
    exact ⟨[(0, 1)], by simp [applySwaps, byNetworkName.Swap]⟩
  | trans _ _ ih₁ ih₂ =>
    obtain ⟨s₁, h₁⟩ := ih₁
    obtain ⟨s₂, h₂⟩ := ih₂
    exact ⟨s₁ ++ s₂, applySwaps_append s₁ s₂ _ _ _ h₁ h₂⟩

theorem SortContract.perm {sortSort : List NetworkResource → List NetworkResource}
    (h : SortContract sortSort) (r : List NetworkResource) : (sortSort r).Perm r := by
  obtain ⟨swaps, hs⟩ := h.bySwaps r
  exact applySwaps_perm swaps r _ hs

theorem SortContract.pairwise {sortSort : List NetworkResource → List NetworkResource}
    (h : SortContract sortSort) (r : List NetworkResource) :
    (sortSort r).Pairwise (fun a b => a.Name ≤ b.Name) := by
  rw [List.pairwise_iff_getElem]
  intro i j hi hj hij
  have hs := h.sorted r i j hij hj
  unfold byNetworkName.Less at hs
  rw [List.getElem?_eq_getElem hj, List.getElem?_eq_getElem hi] at hs
  simp only [Option.some.injEq, decide_eq_false_iff_not, not_lt] at hs
  exact hs

theorem sortContract_of_perm_of_pairwise {sortSort : List NetworkResource → List NetworkResource}
    (hperm : ∀ r, (sortSort r).Perm r)
    (hsorted : ∀ r, (sortSort r).Pairwise (fun a b => a.Name ≤ b.Name)) :
    SortContract sortSort where
  bySwaps r := exists_swaps_of_perm (hperm r).symm
  sorted r i j hij hj := by
    have hi : i < (sortSort r).length := lt_trans hij hj
    have hp := List.pairwise_iff_getElem.mp (hsorted r) i j hi hj hij
    unfold byNetworkName.Less
    rw [List.getElem?_eq_getElem hj, List.getElem?_eq_getElem hi]
    simp only [Option.some.injEq, decide_eq_false_iff_not, not_lt]
    exact hp

theorem stableSort_perm (r : List NetworkResource) : (stableSort r).Perm r :=
  List.perm_insertionSort _ r

theorem stableSort_pairwise (r : List NetworkResource) :
    (stableSort r).Pairwise (fun a b => a.Name ≤ b.Name) := by
  haveI : IsTotal NetworkResource (fun a b => a.Name ≤ b.Name) := ⟨fun a b => le_total a.Name b.Name⟩
  haveI : IsTrans NetworkResource (fun a b => a.Name ≤ b.Name) :=
    ⟨fun a b c hab hbc => le_trans hab hbc⟩
  exact List.sorted_insertionSort _ r

theorem stableSort_contract : SortContract stableSort :=
  sortContract_of_perm_of_pairwise stableSort_perm stableSort_pairwise

theorem filter_orderedInsert_name (n : GoString) (b : NetworkResource) :
    ∀ s : List NetworkResource,
      (s.orderedInsert (fun a c => a.Name ≤ c.Name) b).filter (fun r => r.Name = n) =
        (b :: s).filter (fun r => r.Name = n)
  | [] => by simp
  | c :: s => by
    by_cases hbc : b.Name ≤ c.Name
    · simp [List.orderedInsert, hbc]
    · have ih := filter_orderedInsert_name n b s
      have hcb : c.Name ≠ b.Name := fun h => hbc (le_of_eq h.symm)
      by_cases hb : b.Name = n
      · subst hb
        simp only [List.orderedInsert, hbc, ite_false, List.filter_cons, hcb, decide_True,
          decide_False, ite_true, Bool.false_eq_true] at ih ⊢
        exact ih
      · simp only [List.orderedInsert, hbc, ite_false, List.filter_cons, hb, decide_False,
          Bool.false_eq_true] at ih ⊢
        rw [ih]

/-- The insertion sort by `Name` is stable. -/
theorem stableSort_stable : ∀ r : List NetworkResource, StableOrder r (stableSort r)
  | [], _ => rfl
  | b :: r, n => by
    have ih := stableSort_stable r n
    unfold stableSort at ih ⊢
    rw [List.insertionSort, filter_orderedInsert_name, List.filter_cons, List.filter_cons, ih]

/-! ## Lemmas on `runList` -/

theorem goStr_newline : goStr "\n" = [10] := by decide

theorem eq_of_map_eq_of_injOn {α β : Type} (f : α → β) : ∀ (l₁ l₂ : List α),
    (∀ a ∈ l₁, ∀ b ∈ l₂, f a = f b → a = b) → l₁.map f = l₂.map f → l₁ = l₂
  | [], [], _, _ => rfl
  | [], _ :: _, _, h => by simp at h
  | _ :: _, [], _, h => by simp at h
  | a :: l₁, b :: l₂, hinj, h => by
    simp only [List.map_cons, List.cons.injEq] at h
    have hab : a = b := hinj a (List.mem_cons_self _ _) b (List.mem_cons_self _ _) h.1
    have ht : l₁ = l₂ :=
      eq_of_map_eq_of_injOn f l₁ l₂
        (fun x hx y hy => hinj x (List.mem_cons_of_mem _ hx) y (List.mem_cons_of_mem _ hy)) h.2
    rw [hab, ht]

theorem eq_of_perm_of_sorted_names {l₁ l₂ : List NetworkResource} (hp : l₁.Perm l₂)
    (h₁ : l₁.Pairwise (fun a b => a.Name ≤ b.Name))
    (h₂ : l₂.Pairwise (fun a b => a.Name ≤ b.Name))
    (hnodup : (l₂.map (fun r => r.Name)).Nodup) : l₁ = l₂ := by
  have hnames : l₁.map (fun r => r.Name) = l₂.map (fun r => r.Name) := by
    apply List.eq_of_perm_of_sorted (r := (· ≤ ·)) (hp.map _)
    · exact List.pairwise_map.mpr h₁
    · exact List.pairwise_map.mpr h₂
  refine eq_of_map_eq_of_injOn (fun r => r.Name) l₁ l₂ ?_ hnames
  intro a ha b hb hab
  exact List.inj_on_of_nodup_map hnodup (hp.subset ha) hb hab

theorem firstLine_append_newline (line rest : GoString) (h : ∀ b ∈ line, b ≠ 10) :
    network.firstLine (line ++ 10 :: rest) = line := by
  unfold network.firstLine
  induction line with
  | nil => simp
  | cons b line ih =>
    have hb : b ≠ 10 := h b (List.mem_cons_self _ _)
    simp only [List.cons_append, List.takeWhile_cons, hb, ne_eq, not_false_eq_true,
      decide_True, ite_true, List.cons.injEq, true_and]
    exact ih (fun x hx => h x (List.mem_cons_of_mem _ hx))

set_option maxRecDepth 4096 in
theorem header_no_newline : ∀ b ∈ goStr "网络ID\t名称\t驱动\t范围", b ≠ 10 := by
  decide

namespace network

/-- The records named `app` after `sort.Sort` on the thirteen networks are not in
the order of the daemon's answer. -/
theorem sortNetworks_thirteen_app (next : Nat → Nat) :
    ¬ (sortNetworks next thirteenNetworks).filter (fun r => r.Name = goStr "app") =
      thirteenNetworks.filter (fun r => r.Name = goStr "app") := by
  have h : ((sortNetworks next thirteenNetworks).filter (fun r => r.Name = goStr "app")).map
      (fun r => r.ID) = [goStr "a7c4e1000002", goStr "a7c4e1000001"] := rfl
  intro heq
  rw [heq] at h
  revert h
  decide

theorem foldl_writeRow (TruncateID : GoString → GoString) (opts : listOptions) :
    ∀ (rows : List NetworkResource) (w : GoString),
      rows.foldl (writeRow TruncateID opts) w = w ++ (rows.map (rowText TruncateID opts)).flatten
  | [], w => by simp
  | r :: rows, w => by
    simp only [List.foldl_cons, List.map_cons, List.flatten_cons]
    rw [foldl_writeRow TruncateID opts rows]
    have : writeRow TruncateID opts w r = w ++ rowText TruncateID opts r := by
      unfold rowText writeRow
      cases opts.quiet <;> simp
    rw [this, List.append_assoc]

theorem parseFilters_append {Args : Type} (ParseFlag : GoString → Args → Except GoError Args) :
    ∀ (pre rest : List GoString) (init acc : Args),
      parseFilters ParseFlag pre init = .ok acc →
      parseFilters ParseFlag (pre ++ rest) init = parseFilters ParseFlag rest acc
  | [], rest, init, acc, h => by
    simp only [parseFilters, Except.ok.injEq] at h
    subst h
    rfl
  | f :: pre, rest, init, acc, h => by
    simp only [List.cons_append, parseFilters] at h ⊢
    cases hf : ParseFlag f init with
    | error e => rw [hf] at h; cases h
    | ok acc' =>
      rw [hf] at h
      simp only at h ⊢
      exact parseFilters_append ParseFlag pre rest acc' acc h

/-- The text of a successful run: the header unless `quiet`, then the rows. -/
theorem runList_ok {Args : Type} (d : ListDeps Args) (opts : listOptions) (args : Args)
    (records : List NetworkResource)
    (hparse : parseFilters d.ParseFlag opts.filter d.NewArgs = .ok args)
    (hlist : d.NetworkList args = .ok records) :
    (runList d opts).err = none ∧ (runList d opts).requests = [args] ∧
    (runList d opts).written =
      (if opts.quiet then [] else goStr "网络ID\t名称\t驱动\t范围" ++ goStr "\n") ++
        ((d.sortSort records).map (rowText d.TruncateID opts)).flatten ∧
    (runList d opts).out = d.tabwriterFlush (runList d opts).written := by
  unfold runList
  simp only [hparse, hlist, foldl_writeRow]
  cases opts.quiet <;> simp

theorem runList_parse_error {Args : Type} (d : ListDeps Args) (opts : listOptions)
    (err : GoError) (hparse : parseFilters d.ParseFlag opts.filter d.NewArgs = .error err) :
    (runList d opts).err = some err ∧ (runList d opts).requests = [] ∧
    (runList d opts).written = [] ∧ (runList d opts).out = [] := by
  unfold runList
  simp [hparse]

theorem runList_remote_error {Args : Type} (d : ListDeps Args) (opts : listOptions) (args : Args)
    (err : GoError) (hparse : parseFilters d.ParseFlag opts.filter d.NewArgs = .ok args)
    (hlist : d.NetworkList args = .error err) :
    (runList d opts).err = some err ∧ (runList d opts).requests = [args] ∧
    (runList d opts).written = [] ∧ (runList d opts).out = [] := by
  unfold runList
  simp [hparse, hlist]

end network

/-! ## Lemmas on the modelled parser -/

theorem goStr_colon : goStr ":" = [58] := by decide

theorem dropWhile_ne_eq_cons {sep c : Fin 256} {rest : GoString} : ∀ {s : GoString},
    s.dropWhile (fun b => decide (b ≠ sep)) = c :: rest → c = sep
  | [], h => by simp at h
  | b :: s, h => by
    by_cases hb : b = sep
    · subst hb
      simp only [List.dropWhile_cons, ne_eq, not_true_eq_false, decide_False,
        Bool.false_eq_true, ite_false, List.cons.injEq] at h
      exact h.1.symm
    · simp only [List.dropWhile_cons, ne_eq, hb, not_false_eq_true, decide_True,
        ite_true] at h
      exact dropWhile_ne_eq_cons h

/-- What the modelled parser accepts: a name, which it returns as it is, or a
name and a tag around a `:`. -/
theorem reference.ParseNamed_ok {s : GoString} {named : reference.Named}
    (h : reference.ParseNamed s = .ok named) :
    named = .nameOnly s ∨ ∃ n t : GoString, named = .tagged n t ∧ s = n ++ goStr ":" ++ t := by
  have hsplit := List.takeWhile_append_dropWhile (fun b : Fin 256 => decide (b ≠ 58)) s
  unfold reference.ParseNamed at h
  simp only at h
  split at h
  · cases h
  · split at h
    · next hrest =>
      rw [hrest, List.append_nil] at hsplit
      rw [hsplit] at h
      cases h
      exact Or.inl rfl
    · next c tag hrest =>
      split at h
      · cases h
      · cases h
        refine Or.inr ⟨_, tag, rfl, ?_⟩
        have hc : c = 58 := dropWhile_ne_eq_cons hrest
        rw [hrest, hc] at hsplit
        rw [goStr_colon, List.append_assoc, List.singleton_append]
        exact hsplit.symm

/-! ## The contract of `runList` -/

namespace network

/-- C1: when the filters parse and the remote list call answers `records`, the
rows `runList` writes are the rows of `sort.Sort`'s result, in that order, and
in that order every row's Name is `<=` (byte-wise) the Name of the next row. -/
theorem runList_rows_sorted_by_name {Args : Type} (d : ListDeps Args) (opts : listOptions)
    (args : Args) (records : List NetworkResource)
    (hsort : SortContract d.sortSort)
    (hparse : parseFilters d.ParseFlag opts.filter d.NewArgs = .ok args)
    (hlist : d.NetworkList args = .ok records) :
    (runList d opts).written =
      (if opts.quiet then [] else goStr "网络ID\t名称\t驱动\t范围" ++ goStr "\n") ++
        ((d.sortSort records).map (rowText d.TruncateID opts)).flatten ∧
    (d.sortSort records).Chain' (fun a b => a.Name ≤ b.Name) :=
  ⟨(runList_ok d opts args records hparse hlist).2.2.1, (hsort.pairwise records).chain'⟩

/-- Witness of C1: the three sample networks, sorted by a routine that meets the
contract of `sort.Sort`, are written in the order bridge, bridge, host. -/
theorem runList_rows_sorted_by_name_witness :
    SortContract stableSort ∧
    parseFilters filters.ParseFlag [] filters.NewArgs = .ok [] ∧
    ((runList (specDeps (.ok sampleNetworks) stableSort) ⟨false, false, []⟩).written =
      goStr "网络ID\t名称\t驱动\t范围" ++ goStr "\n" ++
        ((stableSort sampleNetworks).map
          (rowText stringid.TruncateID ⟨false, false, []⟩)).flatten ∧
      (stableSort sampleNetworks).Chain' (fun a b => a.Name ≤ b.Name)) ∧
    (stableSort sampleNetworks).map (fun r => r.Name) =
      [goStr "bridge", goStr "bridge", goStr "host"] :=
  ⟨stableSort_contract, rfl,
    runList_rows_sorted_by_name (specDeps (.ok sampleNetworks) stableSort) ⟨false, false, []⟩ []
      sampleNetworks stableSort_contract rfl rfl,
    by decide⟩

/-- C2, refuted: thirteen networks, of which the daemon lists `a7c4e1000001`
before `a7c4e1000002`, both named `app`. `sort.Sort` takes the seventh record as
pivot and swaps it with the first, so that the first `app` record comes to stand
behind the second one; the insertion sort that finishes the left part moves it
back up to that record, not past it. `runList` prints `a7c4e1000002` before
`a7c4e1000001`. -/
theorem runList_sort_not_stable :
    (∀ next : Nat → Nat,
      (sort.Sort next byNetworkName.asInterface thirteenNetworks).map
          (fun sorted => sorted.map (fun r => (r.ID, r.Name))) =
        some [(goStr "a7c4e1000013", goStr "admin"), (goStr "a7c4e1000002", goStr "app"),
          (goStr "a7c4e1000001", goStr "app"), (goStr "a7c4e1000003", goStr "backend"),
          (goStr "a7c4e1000004", goStr "bridge"), (goStr "a7c4e1000005", goStr "cache"),
          (goStr "a7c4e1000006", goStr "db"), (goStr "a7c4e1000007", goStr "frontend"),
          (goStr "a7c4e1000008", goStr "host"), (goStr "a7c4e1000009", goStr "ingress"),
          (goStr "a7c4e1000010", goStr "logs"), (goStr "a7c4e1000011", goStr "metrics"),
          (goStr "a7c4e1000012", goStr "none")]) ∧
    (∀ next : Nat → Nat,
      (runList (specDeps (.ok thirteenNetworks) (sortNetworks next)) ⟨true, false, []⟩).err =
        none ∧
      (runList (specDeps (.ok thirteenNetworks) (sortNetworks next)) ⟨true, false, []⟩).written =
        goStr ("a7c4e1000013\na7c4e1000002\na7c4e1000001\na7c4e1000003\na7c4e1000004\n" ++
          "a7c4e1000005\na7c4e1000006\na7c4e1000007\na7c4e1000008\na7c4e1000009\n" ++
          "a7c4e1000010\na7c4e1000011\na7c4e1000012\n")) ∧
    (∀ next : Nat → Nat, ¬ StableOrder thirteenNetworks (sortNetworks next thirteenNetworks)) :=
  ⟨fun _ => rfl, fun _ => ⟨rfl, rfl⟩,
    fun next h => absurd (h (goStr "app")) (sortNetworks_thirteen_app next)⟩

/-- C2, amended: the sort keeps, for every Name, exactly the records of the
remote response that carry it (as a permutation of their order there, none lost
or repeated); which of two records of equal Name comes first is left to
`sort.Sort`. When no two records share a Name the order of the rows is the one
a stable sort gives. -/
theorem runList_sort_keeps_records_of_each_name {Args : Type} (d : ListDeps Args)
    (opts : listOptions) (args : Args) (records : List NetworkResource)
    (hsort : SortContract d.sortSort)
    (hparse : parseFilters d.ParseFlag opts.filter d.NewArgs = .ok args)
    (hlist : d.NetworkList args = .ok records) :
    (runList d opts).written =
      (if opts.quiet then [] else goStr "网络ID\t名称\t驱动\t范围" ++ goStr "\n") ++
        ((d.sortSort records).map (rowText d.TruncateID opts)).flatten ∧
    (∀ n : GoString, ((d.sortSort records).filter (fun r => r.Name = n)).Perm
      (records.filter (fun r => r.Name = n))) ∧
    ((records.map (fun r => r.Name)).Nodup →
      d.sortSort records = stableSort records ∧ StableOrder records (d.sortSort records)) := by
  refine ⟨(runList_ok d opts args records hparse hlist).2.2.1,
    fun n => (hsort.perm records).filter _, fun hnodup => ?_⟩
  have hnodup' : ((stableSort records).map (fun r => r.Name)).Nodup :=
    (((stableSort_perm records).map _).nodup_iff).mpr hnodup
  have heq : d.sortSort records = stableSort records :=
    eq_of_perm_of_sorted_names ((hsort.perm records).trans (stableSort_perm records).symm)
      (hsort.pairwise records) (stableSort_pairwise records) hnodup'
  exact ⟨heq, heq ▸ stableSort_stable records⟩

/-- Witness of the amended C2: of the sample networks the two named `bridge` are
kept by a routine that meets the contract of `sort.Sort`, and the first two
networks, whose Names differ, are put in the one possible order. -/
theorem runList_sort_keeps_records_of_each_name_witness :
    SortContract stableSort ∧
    ((stableSort sampleNetworks).filter (fun r => r.Name = goStr "bridge")).Perm
      (sampleNetworks.filter (fun r => r.Name = goStr "bridge")) ∧
    ((sampleNetworks.take 2).map (fun r => r.Name)).Nodup ∧
    StableOrder (sampleNetworks.take 2) (stableSort (sampleNetworks.take 2)) :=
  ⟨stableSort_contract,
    (runList_sort_keeps_records_of_each_name
      (specDeps (.ok sampleNetworks) stableSort) ⟨true, true, []⟩ []
      sampleNetworks stableSort_contract rfl rfl).2.1 (goStr "bridge"),
    by decide,
    ((runList_sort_keeps_records_of_each_name
      (specDeps (.ok (sampleNetworks.take 2)) stableSort) ⟨true, true, []⟩ []
      (sampleNetworks.take 2) stableSort_contract rfl rfl).2.2 (by decide)).2⟩

end network

namespace network

/-- C3: with `quiet` set and a successful remote call that answers `n` records,
the text `runList` writes is exactly `n` lines and no header: the line of the
k-th record in sorted order is its ID followed by a newline, the ID truncated
when `noTrunc` is false and verbatim when it is true. -/
theorem runList_quiet_prints_one_id_per_line {Args : Type} (d : ListDeps Args)
    (opts : listOptions) (args : Args) (records : List NetworkResource)
    (hsort : SortContract d.sortSort) (hquiet : opts.quiet = true)
    (hparse : parseFilters d.ParseFlag opts.filter d.NewArgs = .ok args)
    (hlist : d.NetworkList args = .ok records) :
    (runList d opts).err = none ∧
    (runList d opts).written =
      ((d.sortSort records).map
        (fun r => (if opts.noTrunc then r.ID else d.TruncateID r.ID) ++ goStr "\n")).flatten ∧
    ((d.sortSort records).map
        (fun r => (if opts.noTrunc then r.ID else d.TruncateID r.ID) ++ goStr "\n")).length =
      records.length ∧
    (runList d opts).out = d.tabwriterFlush (runList d opts).written := by
  obtain ⟨herr, -, hw, hout⟩ := runList_ok d opts args records hparse hlist
  refine ⟨herr, ?_, ?_, hout⟩
  · rw [hw, hquiet]
    simp only [ite_true, List.nil_append]
    congr 1
    apply List.map_congr_left
    intro r _
    unfold rowText writeRow printedID
    cases opts.noTrunc <;> simp [hquiet]
  · rw [List.length_map]
    exact (hsort.perm records).length_eq

/-- Witness of C3: the three sample networks, listed with `-q`. -/
theorem runList_quiet_prints_one_id_per_line_witness :
    SortContract stableSort ∧
    (runList (specDeps (.ok sampleNetworks) stableSort) ⟨true, false, []⟩).written =
      goStr "9f904ee27bf5\ncf03ee007fb4\n7fca4eb8c647\n" ∧
    (runList (specDeps (.ok sampleNetworks) stableSort) ⟨true, true, []⟩).written =
      goStr "9f904ee27bf5\ncf03ee007fb4\n7fca4eb8c647aa11\n" :=
  ⟨stableSort_contract,
    (runList_quiet_prints_one_id_per_line (specDeps (.ok sampleNetworks) stableSort)
      ⟨true, false, []⟩ [] sampleNetworks stableSort_contract rfl rfl rfl).2.1.trans (by decide),
    (runList_quiet_prints_one_id_per_line (specDeps (.ok sampleNetworks) stableSort)
      ⟨true, true, []⟩ [] sampleNetworks stableSort_contract rfl rfl rfl).2.1.trans (by decide)⟩

/-- C4: the ID that `runList` prints for a record opens the record's row; with
`noTrunc` false and `stringid.TruncateID` it is at most 12 bytes long and a
prefix of the record's ID, with `noTrunc` true it is the record's ID. -/
theorem printedID_truncated_or_verbatim (TruncateID : GoString → GoString)
    (opts : listOptions) (r : NetworkResource) :
    rowText TruncateID opts r = printedID TruncateID opts r ++
      (if opts.quiet then goStr "\n"
       else goStr "\t" ++ r.Name ++ goStr "\t" ++ r.Driver ++ goStr "\t" ++ r.Scope ++
        goStr "\t" ++ goStr "\n") ∧
    (opts.noTrunc = false →
      (printedID stringid.TruncateID opts r).length ≤ 12 ∧
      printedID stringid.TruncateID opts r <+: r.ID) ∧
    (opts.noTrunc = true → printedID TruncateID opts r = r.ID) := by
  refine ⟨?_, fun h => ?_, fun h => ?_⟩
  · unfold rowText writeRow
    cases opts.quiet <;> simp
  · unfold printedID stringid.TruncateID stringid.shortLen
    simp only [h, Bool.not_false, ite_true]
    exact ⟨List.length_take_le 12 r.ID, List.take_prefix 12 r.ID⟩
  · unfold printedID
    simp [h]

/-- Witness of C4: the sample network `host`, whose ID is 16 bytes long. -/
theorem printedID_truncated_or_verbatim_witness :
    printedID stringid.TruncateID ⟨false, false, []⟩
      ⟨goStr "7fca4eb8c647aa11", goStr "host", goStr "host", goStr "local"⟩ =
        goStr "7fca4eb8c647" ∧
    (printedID stringid.TruncateID ⟨false, false, []⟩
      ⟨goStr "7fca4eb8c647aa11", goStr "host", goStr "host", goStr "local"⟩).length ≤ 12 ∧
    printedID stringid.TruncateID ⟨false, true, []⟩
      ⟨goStr "7fca4eb8c647aa11", goStr "host", goStr "host", goStr "local"⟩ =
        goStr "7fca4eb8c647aa11" :=
  ⟨by decide,
    ((printedID_truncated_or_verbatim stringid.TruncateID ⟨false, false, []⟩
      ⟨goStr "7fca4eb8c647aa11", goStr "host", goStr "host", goStr "local"⟩).2.1 rfl).1,
    (printedID_truncated_or_verbatim stringid.TruncateID ⟨false, true, []⟩
      ⟨goStr "7fca4eb8c647aa11", goStr "host", goStr "host", goStr "local"⟩).2.2 rfl⟩

/-- C5: without `quiet`, after a successful remote call that answers `n`
records, `runList` writes the header row and then exactly `n` data rows, one per
record of `sort.Sort`'s result: the printed ID, the Name, the Driver and the
Scope, each followed by a tab, and a newline. The rendered records are, as a
multiset, the records the remote call returned. -/
theorem runList_table_has_one_row_per_record {Args : Type} (d : ListDeps Args)
    (opts : listOptions) (args : Args) (records : List NetworkResource)
    (hsort : SortContract d.sortSort) (hquiet : opts.quiet = false)
    (hparse : parseFilters d.ParseFlag opts.filter d.NewArgs = .ok args)
    (hlist : d.NetworkList args = .ok records) :
    (runList d opts).err = none ∧
    (runList d opts).written =
      goStr "网络ID\t名称\t驱动\t范围" ++ goStr "\n" ++
        ((d.sortSort records).map
          (fun r => (if opts.noTrunc then r.ID else d.TruncateID r.ID) ++ goStr "\t" ++
            r.Name ++ goStr "\t" ++ r.Driver ++ goStr "\t" ++ r.Scope ++ goStr "\t" ++
            goStr "\n")).flatten ∧
    (d.sortSort records).length = records.length ∧
    (↑(d.sortSort records) : Multiset NetworkResource) = ↑records ∧
    (runList d opts).out = d.tabwriterFlush (runList d opts).written := by
  obtain ⟨herr, -, hw, hout⟩ := runList_ok d opts args records hparse hlist
  refine ⟨herr, ?_, (hsort.perm records).length_eq, Multiset.coe_eq_coe.mpr (hsort.perm records),
    hout⟩
  rw [hw, hquiet]
  simp only [Bool.false_eq_true, ite_false]
  congr 2
  apply List.map_congr_left
  intro r _
  unfold rowText writeRow printedID
  cases opts.noTrunc <;> simp [hquiet]

/-- Witness of C5: the table of the three sample networks. -/
theorem runList_table_has_one_row_per_record_witness :
    SortContract stableSort ∧
    (runList (specDeps (.ok sampleNetworks) stableSort) ⟨false, false, []⟩).written =
      goStr ("网络ID\t名称\t驱动\t范围\n" ++
        "9f904ee27bf5\tbridge\tbridge\tlocal\t\n" ++
        "cf03ee007fb4\tbridge\toverlay\tswarm\t\n" ++
        "7fca4eb8c647\thost\thost\tlocal\t\n") :=
  ⟨stableSort_contract,
    (runList_table_has_one_row_per_record (specDeps (.ok sampleNetworks) stableSort)
      ⟨false, false, []⟩ [] sampleNetworks stableSort_contract rfl rfl rfl).2.1.trans
      (by decide)⟩

end network

namespace network

/-- C6, refuted: the header row that `runList` writes for the sample networks
does not carry the titles `Network ID`, `Name`, `Driver`, `Scope`. -/
theorem runList_header_is_not_english :
    (runList (specDeps (.ok sampleNetworks) stableSort) ⟨false, false, []⟩).err = none ∧
    splitBytes 9
      (firstLine (runList (specDeps (.ok sampleNetworks) stableSort) ⟨false, false, []⟩).written)
      ≠ [goStr "Network ID", goStr "Name", goStr "Driver", goStr "Scope"] :=
  ⟨by decide, by decide⟩

/-- C6, amended: without `quiet`, after a successful remote call, the first line
`runList` writes is a header row whose four column titles are `网络ID`, `名称`,
`驱动`, `范围`, in that order, separated by tabs. -/
theorem runList_header_titles {Args : Type} (d : ListDeps Args) (opts : listOptions)
    (args : Args) (records : List NetworkResource) (hquiet : opts.quiet = false)
    (hparse : parseFilters d.ParseFlag opts.filter d.NewArgs = .ok args)
    (hlist : d.NetworkList args = .ok records) :
    firstLine (runList d opts).written = goStr "网络ID\t名称\t驱动\t范围" ∧
    splitBytes 9 (firstLine (runList d opts).written) =
      [goStr "网络ID", goStr "名称", goStr "驱动", goStr "范围"] := by
  have hw := (runList_ok d opts args records hparse hlist).2.2.1
  have hfirst : firstLine (runList d opts).written = goStr "网络ID\t名称\t驱动\t范围" := by
    rw [hw, hquiet]
    simp only [Bool.false_eq_true, ite_false, goStr_newline, List.append_assoc,
      List.singleton_append]
    exact firstLine_append_newline _ _ header_no_newline
  refine ⟨hfirst, ?_⟩
  rw [hfirst]
  decide

/-- Witness of the amended C6: the header of the table of the sample networks. -/
theorem runList_header_titles_witness :
    splitBytes 9
      (firstLine (runList (specDeps (.ok sampleNetworks) stableSort) ⟨false, true, []⟩).written)
      = [goStr "网络ID", goStr "名称", goStr "驱动", goStr "范围"] :=
  (runList_header_titles (specDeps (.ok sampleNetworks) stableSort) ⟨false, true, []⟩ []
    sampleNetworks rfl rfl rfl).2

/-- C7: `runList` writes nothing on its error paths. When a filter string fails
to parse, `runList` returns that error, issues no remote request and writes
nothing; when the remote list call fails, `runList` returns the remote error
and writes nothing, the header included; and whenever `runList` returns an
error, nothing was written. -/
theorem runList_error_paths_write_nothing {Args : Type} (d : ListDeps Args)
    (opts : listOptions) :
    (∀ (pre post : List GoString) (f : GoString) (acc : Args) (err : GoError),
      opts.filter = pre ++ f :: post →
      parseFilters d.ParseFlag pre d.NewArgs = .ok acc →
      d.ParseFlag f acc = .error err →
      (runList d opts).err = some err ∧ (runList d opts).requests = [] ∧
      (runList d opts).written = [] ∧ (runList d opts).out = []) ∧
    (∀ (args : Args) (err : GoError),
      parseFilters d.ParseFlag opts.filter d.NewArgs = .ok args →
      d.NetworkList args = .error err →
      (runList d opts).err = some err ∧ (runList d opts).requests = [args] ∧
      (runList d opts).written = [] ∧ (runList d opts).out = []) ∧
    ((runList d opts).err ≠ none →
      (runList d opts).written = [] ∧ (runList d opts).out = []) := by
  refine ⟨?_, ?_, ?_⟩
  · intro pre post f acc err hfilter hpre hf
    apply runList_parse_error
    rw [hfilter, parseFilters_append d.ParseFlag pre (f :: post) d.NewArgs acc hpre]
    simp [parseFilters, hf]
  · intro args err hparse hlist
    exact runList_remote_error d opts args err hparse hlist
  · intro herr
    cases hparse : parseFilters d.ParseFlag opts.filter d.NewArgs with
    | error e => exact (runList_parse_error d opts e hparse).2.2
    | ok args =>
      cases hlist : d.NetworkList args with
      | error e => exact (runList_remote_error d opts args e hparse hlist).2.2
      | ok records => exact absurd (runList_ok d opts args records hparse hlist).1 herr

/-- Witness of C7: a second filter with no `=` stops `runList` before the remote
call, and a daemon that fails stops it before the header. -/
theorem runList_error_paths_write_nothing_witness :
    ((runList (specDeps (.ok sampleNetworks) stableSort)
        ⟨false, false, [goStr "driver=bridge", goStr "dangling"]⟩).err =
      some (goStr "bad format of filter (expected name=value)") ∧
     (runList (specDeps (.ok sampleNetworks) stableSort)
        ⟨false, false, [goStr "driver=bridge", goStr "dangling"]⟩).requests = [] ∧
     (runList (specDeps (.ok sampleNetworks) stableSort)
        ⟨false, false, [goStr "driver=bridge", goStr "dangling"]⟩).written = [] ∧
     (runList (specDeps (.ok sampleNetworks) stableSort)
        ⟨false, false, [goStr "driver=bridge", goStr "dangling"]⟩).out = []) ∧
    ((runList (specDeps (.error (goStr "connection refused")) stableSort)
        ⟨false, false, [goStr "driver=bridge"]⟩).err = some (goStr "connection refused") ∧
     (runList (specDeps (.error (goStr "connection refused")) stableSort)
        ⟨false, false, [goStr "driver=bridge"]⟩).requests =
          [[(goStr "driver", goStr "bridge")]] ∧
     (runList (specDeps (.error (goStr "connection refused")) stableSort)
        ⟨false, false, [goStr "driver=bridge"]⟩).written = [] ∧
     (runList (specDeps (.error (goStr "connection refused")) stableSort)
        ⟨false, false, [goStr "driver=bridge"]⟩).out = []) :=
  ⟨(runList_error_paths_write_nothing (specDeps (.ok sampleNetworks) stableSort)
      ⟨false, false, [goStr "driver=bridge", goStr "dangling"]⟩).1
      [goStr "driver=bridge"] [] (goStr "dangling") [(goStr "driver", goStr "bridge")]
      (goStr "bad format of filter (expected name=value)") rfl rfl rfl,
   (runList_error_paths_write_nothing (specDeps (.error (goStr "connection refused")) stableSort)
      ⟨false, false, [goStr "driver=bridge"]⟩).2.1
      [(goStr "driver", goStr "bridge")] (goStr "connection refused") rfl rfl⟩

end network

/-! ## The contract of `runEnable` -/

namespace plugin

theorem runEnable_parse_error (d : EnableDeps) (name : GoString) (err : GoError)
    (hparse : d.ParseNamed name = .error err) :
    runEnable d name = { err := some err, requests := [], out := [] } := by
  unfold runEnable
  simp [hparse]

theorem runEnable_not_tagged (d : EnableDeps) (name : GoString) (named : reference.Named)
    (hparse : d.ParseNamed name = .ok named)
    (hkind : (normalize d named).asNamedTagged = none) :
    runEnable d name =
      { err := some (goStr "无效名称: " ++ (normalize d named).String), requests := [],
        out := [] } := by
  unfold runEnable
  simp [hparse, hkind]

theorem runEnable_remote_error (d : EnableDeps) (name : GoString) (named : reference.Named)
    (ref : reference.NamedTagged) (err : GoError)
    (hparse : d.ParseNamed name = .ok named)
    (hkind : (normalize d named).asNamedTagged = some ref)
    (hremote : d.PluginEnable ref.String = some err) :
    runEnable d name = { err := some err, requests := [ref.String], out := [] } := by
  unfold runEnable
  simp [hparse, hkind, hremote]

theorem runEnable_ok (d : EnableDeps) (name : GoString) (named : reference.Named)
    (ref : reference.NamedTagged)
    (hparse : d.ParseNamed name = .ok named)
    (hkind : (normalize d named).asNamedTagged = some ref)
    (hremote : d.PluginEnable ref.String = none) :
    runEnable d name =
      { err := none, requests := [ref.String], out := name ++ goStr "\n" } := by
  unfold runEnable
  simp [hparse, hkind, hremote]

/-- The four ways a run of `runEnable` ends. -/
theorem runEnable_cases (d : EnableDeps) (name : GoString) :
    (∃ err, d.ParseNamed name = .error err ∧
      runEnable d name = { err := some err, requests := [], out := [] }) ∨
    (∃ named, d.ParseNamed name = .ok named ∧ (normalize d named).asNamedTagged = none ∧
      runEnable d name =
        { err := some (goStr "无效名称: " ++ (normalize d named).String), requests := [],
          out := [] }) ∨
    (∃ named ref err, d.ParseNamed name = .ok named ∧
      (normalize d named).asNamedTagged = some ref ∧ d.PluginEnable ref.String = some err ∧
      runEnable d name = { err := some err, requests := [ref.String], out := [] }) ∨
    (∃ named ref, d.ParseNamed name = .ok named ∧
      (normalize d named).asNamedTagged = some ref ∧ d.PluginEnable ref.String = none ∧
      runEnable d name =
        { err := none, requests := [ref.String], out := name ++ goStr "\n" }) := by
  cases hparse : d.ParseNamed name with
  | error err => exact Or.inl ⟨err, rfl, runEnable_parse_error d name err hparse⟩
  | ok named =>
    cases hkind : (normalize d named).asNamedTagged with
    | none => exact Or.inr (Or.inl ⟨named, rfl, hkind, runEnable_not_tagged d name named hparse hkind⟩)
    | some ref =>
      cases hremote : d.PluginEnable ref.String with
      | some err =>
        exact Or.inr (Or.inr (Or.inl ⟨named, ref, err, rfl, hkind, hremote,
          runEnable_remote_error d name named ref err hparse hkind hremote⟩))
      | none =>
        exact Or.inr (Or.inr (Or.inr ⟨named, ref, rfl, hkind, hremote,
          runEnable_ok d name named ref hparse hkind hremote⟩))

theorem runEnable_error_free_echo (d : EnableDeps) (name : GoString) :
    (runEnable d name).err = none → (runEnable d name).out = name ++ goStr "\n" := by
  rcases runEnable_cases d name with ⟨err, -, h⟩ | ⟨named, -, -, h⟩ |
    ⟨named, ref, err, -, -, -, h⟩ | ⟨named, ref, -, -, -, h⟩ <;> rw [h] <;> simp

theorem runEnable_nameOnly (ParseNamed : GoString → Except GoError reference.Named)
    (PluginEnable : GoString → Option GoError) (name : GoString)
    (hparse : ParseNamed name = .ok (.nameOnly name)) :
    (runEnable (specDeps ParseNamed PluginEnable) name).requests = [name ++ goStr ":latest"] ∧
    (PluginEnable (name ++ goStr ":latest") = none →
      (runEnable (specDeps ParseNamed PluginEnable) name).err = none ∧
      (runEnable (specDeps ParseNamed PluginEnable) name).out = name ++ goStr "\n") := by
  have hlatest : goStr ":latest" = goStr ":" ++ goStr "latest" := by decide
  have hkind : (normalize (specDeps ParseNamed PluginEnable) (.nameOnly name)).asNamedTagged =
      some ⟨name, reference.DefaultTag⟩ := rfl
  have hstr : reference.NamedTagged.String ⟨name, reference.DefaultTag⟩ =
      name ++ goStr ":latest" := by
    simp [reference.NamedTagged.String, reference.DefaultTag, hlatest]
  cases hremote : PluginEnable (name ++ goStr ":latest") with
  | some err =>
    rw [runEnable_remote_error (specDeps ParseNamed PluginEnable) name _ _ err hparse hkind
      (by rw [hstr]; exact hremote), hstr]
    simp
  | none =>
    rw [runEnable_ok (specDeps ParseNamed PluginEnable) name _ _ hparse hkind
      (by rw [hstr]; exact hremote), hstr]
    simp

theorem runEnable_tagged (ParseNamed : GoString → Except GoError reference.Named)
    (PluginEnable : GoString → Option GoError) (name n t : GoString)
    (hparse : ParseNamed name = .ok (.tagged n t)) (hname : name = n ++ goStr ":" ++ t) :
    (runEnable (specDeps ParseNamed PluginEnable) name).requests = [name] ∧
    (PluginEnable name = none →
      (runEnable (specDeps ParseNamed PluginEnable) name).err = none ∧
      (runEnable (specDeps ParseNamed PluginEnable) name).out = name ++ goStr "\n") := by
  have hkind : (normalize (specDeps ParseNamed PluginEnable) (.tagged n t)).asNamedTagged =
      some ⟨n, t⟩ := rfl
  have hstr : reference.NamedTagged.String ⟨n, t⟩ = name := by
    simp [reference.NamedTagged.String, hname]
  cases hremote : PluginEnable name with
  | some err =>
    rw [runEnable_remote_error (specDeps ParseNamed PluginEnable) name _ _ err hparse hkind
      (by rw [hstr]; exact hremote), hstr]
    simp
  | none =>
    rw [runEnable_ok (specDeps ParseNamed PluginEnable) name _ _ hparse hkind
      (by rw [hstr]; exact hremote), hstr]
    simp

/-- C8: for a name that parses to a reference with that name and no tag,
`runEnable` calls the remote enable operation once, with `name:latest`, and for
an argument `n:t` that parses to the name `n` with the tag `t` it calls it with
the argument unchanged; when the remote operation succeeds, what is written is
the argument as given, followed by a newline. With the modelled parser this
covers every argument that parses: the remote call gets `name:latest` when the
argument has no tag and the argument itself when it has one. -/
theorem runEnable_default_tag_and_echo
    (ParseNamed : GoString → Except GoError reference.Named)
    (PluginEnable : GoString → Option GoError) (name : GoString) :
    (ParseNamed name = .ok (.nameOnly name) →
      (runEnable (specDeps ParseNamed PluginEnable) name).requests = [name ++ goStr ":latest"] ∧
      (PluginEnable (name ++ goStr ":latest") = none →
        (runEnable (specDeps ParseNamed PluginEnable) name).err = none ∧
        (runEnable (specDeps ParseNamed PluginEnable) name).out = name ++ goStr "\n")) ∧
    (∀ n t : GoString, ParseNamed name = .ok (.tagged n t) → name = n ++ goStr ":" ++ t →
      (runEnable (specDeps ParseNamed PluginEnable) name).requests = [name] ∧
      (PluginEnable name = none →
        (runEnable (specDeps ParseNamed PluginEnable) name).err = none ∧
        (runEnable (specDeps ParseNamed PluginEnable) name).out = name ++ goStr "\n")) ∧
    (∀ named : reference.Named, reference.ParseNamed name = .ok named →
      (runEnable (specDeps reference.ParseNamed PluginEnable) name).requests =
        [if reference.IsNameOnly named then name ++ goStr ":latest" else name] ∧
      ((runEnable (specDeps reference.ParseNamed PluginEnable) name).err = none →
        (runEnable (specDeps reference.ParseNamed PluginEnable) name).out =
          name ++ goStr "\n")) := by
  refine ⟨runEnable_nameOnly ParseNamed PluginEnable name,
    fun n t => runEnable_tagged ParseNamed PluginEnable name n t, fun named hparse => ?_⟩
  refine ⟨?_, (runEnable_error_free_echo _ name)⟩
  rcases reference.ParseNamed_ok hparse with hnamed | ⟨n, t, hnamed, hname⟩
  · subst hnamed
    exact (runEnable_nameOnly reference.ParseNamed PluginEnable name hparse).1
  · subst hnamed
    exact (runEnable_tagged reference.ParseNamed PluginEnable name n t hparse hname).1

/-- Witness of C8: `myplugin` is enabled as `myplugin:latest` and echoed as
`myplugin`; `myplugin:v2` is enabled as `myplugin:v2`. -/
theorem runEnable_default_tag_and_echo_witness :
    ((runEnable (specDeps reference.ParseNamed (fun _ => none)) (goStr "myplugin")).requests =
        [goStr "myplugin" ++ goStr ":latest"] ∧
      (runEnable (specDeps reference.ParseNamed (fun _ => none)) (goStr "myplugin")).err = none ∧
      (runEnable (specDeps reference.ParseNamed (fun _ => none)) (goStr "myplugin")).out =
        goStr "myplugin" ++ goStr "\n") ∧
    (runEnable (specDeps reference.ParseNamed (fun _ => none)) (goStr "myplugin:v2")).requests =
      [goStr "myplugin:v2"] :=
  ⟨⟨((runEnable_default_tag_and_echo reference.ParseNamed (fun _ => none)
        (goStr "myplugin")).1 rfl).1,
      ((runEnable_default_tag_and_echo reference.ParseNamed (fun _ => none)
        (goStr "myplugin")).1 rfl).2 rfl⟩,
    ((runEnable_default_tag_and_echo reference.ParseNamed (fun _ => none)
      (goStr "myplugin:v2")).2.1 (goStr "myplugin") (goStr "v2") rfl (by decide)).1⟩

/-- C9: whenever `runEnable` returns an error, nothing was written; when the
remote enable call fails, `runEnable` returns the error of that call and the
success line is not written. The success line is written only with a `nil`
return. -/
theorem runEnable_error_writes_nothing (d : EnableDeps) (name : GoString) :
    ((runEnable d name).err ≠ none → (runEnable d name).out = []) ∧
    (∀ (arg : GoString) (err : GoError), arg ∈ (runEnable d name).requests →
      d.PluginEnable arg = some err →
      (runEnable d name).err = some err ∧ (runEnable d name).out = []) ∧
    ((runEnable d name).err = none → (runEnable d name).out = name ++ goStr "\n") := by
  rcases runEnable_cases d name with ⟨err, -, h⟩ | ⟨named, -, -, h⟩ |
    ⟨named, ref, err, -, -, hremote, h⟩ | ⟨named, ref, -, -, hremote, h⟩
  · rw [h]; simp
  · rw [h]; simp
  · rw [h]
    refine ⟨fun _ => rfl, ?_, fun h => by simp at h⟩
    intro arg e harg he
    simp only [List.mem_singleton] at harg
    subst harg
    rw [hremote] at he
    simp only [Option.some.injEq] at he
    subst he
    exact ⟨rfl, rfl⟩
  · rw [h]
    refine ⟨fun h => by simp at h, ?_, fun _ => rfl⟩
    intro arg e harg he
    simp only [List.mem_singleton] at harg
    subst harg
    rw [hremote] at he
    cases he

/-- Witness of C9: a daemon that refuses to enable `myplugin`. -/
theorem runEnable_error_writes_nothing_witness :
    (runEnable (specDeps reference.ParseNamed (fun _ => some (goStr "plugin not found")))
        (goStr "myplugin")).requests = [goStr "myplugin:latest"] ∧
    (runEnable (specDeps reference.ParseNamed (fun _ => some (goStr "plugin not found")))
        (goStr "myplugin")).err = some (goStr "plugin not found") ∧
    (runEnable (specDeps reference.ParseNamed (fun _ => some (goStr "plugin not found")))
        (goStr "myplugin")).out = [] :=
  ⟨by decide,
    (runEnable_error_writes_nothing
      (specDeps reference.ParseNamed (fun _ => some (goStr "plugin not found")))
      (goStr "myplugin")).2.1 (goStr "myplugin:latest") (goStr "plugin not found")
      (by decide) rfl⟩

/-- C10: `runEnable` calls the remote enable operation only with a reference of
the tagged kind. When parsing fails it returns the parse error and makes no
call; when the parsed reference, after the default tag is applied, is not of
the tagged kind it returns an error whose message contains the string of that
reference and makes no call; and every argument of a remote call is the string
of a tagged reference. -/
theorem runEnable_calls_remote_with_tagged_only (d : EnableDeps) (name : GoString) :
    (∀ err : GoError, d.ParseNamed name = .error err →
      (runEnable d name).err = some err ∧ (runEnable d name).requests = [] ∧
      (runEnable d name).out = []) ∧
    (∀ named : reference.Named, d.ParseNamed name = .ok named →
      (normalize d named).asNamedTagged = none →
      (∃ msg, (runEnable d name).err = some msg ∧ (normalize d named).String <:+: msg) ∧
      (runEnable d name).requests = [] ∧ (runEnable d name).out = []) ∧
    (∀ named : reference.Named, d.ParseNamed name = .ok named →
      d.IsNameOnly named = false → named.asNamedTagged = none →
      (runEnable d name).err = some (goStr "无效名称: " ++ named.String) ∧
      (runEnable d name).requests = []) ∧
    (∀ arg : GoString, arg ∈ (runEnable d name).requests →
      ∃ (named : reference.Named) (n t : GoString), d.ParseNamed name = .ok named ∧
        normalize d named = .tagged n t ∧ arg = n ++ goStr ":" ++ t) := by
  refine ⟨?_, ?_, ?_, ?_⟩
  · intro err hparse
    rw [runEnable_parse_error d name err hparse]
    exact ⟨rfl, rfl, rfl⟩
  · intro named hparse hkind
    rw [runEnable_not_tagged d name named hparse hkind]
    exact ⟨⟨_, rfl, goStr "无效名称: ", [], by simp⟩, rfl, rfl⟩
  · intro named hparse honly hkind
    have hnorm : normalize d named = named := by
      unfold normalize
      simp [honly]
    have hkind' : (normalize d named).asNamedTagged = none := by rw [hnorm]; exact hkind
    rw [runEnable_not_tagged d name named hparse hkind', hnorm]
    exact ⟨rfl, rfl⟩
  · intro arg harg
    have htagged : ∀ (named : reference.Named) (ref : reference.NamedTagged),
        named.asNamedTagged = some ref → named = .tagged ref.name ref.tag := by
      intro named ref h
      cases named <;> simp [reference.Named.asNamedTagged] at h
      subst h
      rfl
    rcases runEnable_cases d name with ⟨err, -, h⟩ | ⟨named, -, -, h⟩ |
      ⟨named, ref, err, hparse, hkind, -, h⟩ | ⟨named, ref, hparse, hkind, -, h⟩
    · rw [h] at harg; simp at harg
    · rw [h] at harg; simp at harg
    · rw [h] at harg
      simp only [List.mem_singleton] at harg
      exact ⟨named, ref.name, ref.tag, hparse, htagged _ _ hkind, harg⟩
    · rw [h] at harg
      simp only [List.mem_singleton] at harg
      exact ⟨named, ref.name, ref.tag, hparse, htagged _ _ hkind, harg⟩

/-- Witness of C10: `My$Plugin` fails to parse and no call is made; a reference
qualified by a digest is rejected by name and no call is made. -/
theorem runEnable_calls_remote_with_tagged_only_witness :
    ((runEnable (specDeps reference.ParseNamed (fun _ => none)) (goStr "My$Plugin")).err =
        some (goStr "Error parsing reference: My$Plugin is not a valid repository/tag") ∧
      (runEnable (specDeps reference.ParseNamed (fun _ => none)) (goStr "My$Plugin")).requests
        = [] ∧
      (runEnable (specDeps reference.ParseNamed (fun _ => none)) (goStr "My$Plugin")).out = []) ∧
    ((runEnable (specDeps (fun s => .ok (.canonical s (goStr "sha256:0a1b"))) (fun _ => none))
        (goStr "myplugin")).err = some (goStr "无效名称: " ++ goStr "myplugin@sha256:0a1b") ∧
      (runEnable (specDeps (fun s => .ok (.canonical s (goStr "sha256:0a1b"))) (fun _ => none))
        (goStr "myplugin")).requests = []) :=
  ⟨(runEnable_calls_remote_with_tagged_only (specDeps reference.ParseNamed (fun _ => none))
      (goStr "My$Plugin")).1 _ rfl,
    ((runEnable_calls_remote_with_tagged_only
      (specDeps (fun s => .ok (.canonical s (goStr "sha256:0a1b"))) (fun _ => none))
      (goStr "myplugin")).2.2.1 (.canonical (goStr "myplugin") (goStr "sha256:0a1b")) rfl rfl
      rfl)⟩

end plugin
